import Mathlib

/-!
Shallow embedding of the BambooHR employee client (`employees.go`).

Pure Go functions become Lean functions; each network-issuing operation is
embedded as a function from the client configuration and an injected request
executor (the `makeRequest` collaborator) to the pair of the list of HTTP
requests it issues and its `Except` result.  `http.NewRequest` is modelled as
total: in the source it can fail only on a malformed URL, and every URL here
is built by `fmt.Sprintf` from the configured base URL.  Go's `context` values
carry no data relevant to the returned values and are not modelled.
-/

namespace BambooHR

/-- `EmployeeField` is a field that can be requested on `GetEmployee`
(a Go string type). -/
abbrev EmployeeField := String

/-- `EmployeeFields` holds a slice of `EmployeeField`. -/
abbrev EmployeeFields := List EmployeeField

/-- `Join` concatenates the elements of `EmployeeFields` to create a single
string, the separator placed between elements, following the
`switch len(ef)` structure of the Go code.  The `strings.Builder` capacity
hint `b.Grow(n)` in the source does not affect the produced string and is
not modelled. -/
def Join (ef : EmployeeFields) (sep : String) : String :=
  match ef with
  | [] => ""
  | [f] => f
  | f :: t :: r => (t :: r).foldl (fun b s => b ++ sep ++ s) f

/-- The field constants of `employees.go` (exact strings). -/
def DisplayName : EmployeeField := "DisplayName"

def FirstName : EmployeeField := "FirstName"

def LastName : EmployeeField := "LastName"

def PreferredName : EmployeeField := "PreferredName"

def Gender : EmployeeField := "Gender"

def JobTitle : EmployeeField := "JobTitle"

def WorkPhone : EmployeeField := "WorkPhone"

def MobilePhone : EmployeeField := "MobilePhone"

def WorkEmail : EmployeeField := "WorkEmail"

def Department : EmployeeField := "Department"

def Location : EmployeeField := "Location"

def Division : EmployeeField := "Division"

def LinkedIn : EmployeeField := "LinkedIn"

def WorkPhoneExtension : EmployeeField := "WorkPhoneExtension"

def PhotoUploaded : EmployeeField := "PhotoUploaded"

def PhotoURL : EmployeeField := "PhotoURL"

def CanUploadPhoto : EmployeeField := "CanUploadPhoto"

def HireDate : EmployeeField := "HireDate"

def ReportingTo : EmployeeField := "Reporting to"

/-- `Employee` represents a single person.  Go's `*bool` / `*int` pointer
fields (nil meaning absent) become `Option`. -/
structure Employee where
  ID : String
  DisplayName : String
  FirstName : String
  LastName : String
  PreferredName : String
  Gender : String
  JobTitle : String
  WorkPhone : String
  MobilePhone : String
  WorkEmail : String
  Department : String
  Location : String
  Division : String
  LinkedIn : String
  WorkPhoneExtension : String
  PhotoUploaded : Option Bool
  PhotoURL : String
  CanUploadPhoto : Option Int
  HireDate : String
deriving DecidableEq

/-- The zero value of `Employee` (Go `var employee Employee`). -/
def emptyEmployee : Employee :=
  { ID := "", DisplayName := "", FirstName := "", LastName := "",
    PreferredName := "", Gender := "", JobTitle := "", WorkPhone := "",
    MobilePhone := "", WorkEmail := "", Department := "", Location := "",
    Division := "", LinkedIn := "", WorkPhoneExtension := "",
    PhotoUploaded := none, PhotoURL := "", CanUploadPhoto := none,
    HireDate := "" }

/-- `EmployeeResponse` is the top level response from the API. -/
structure EmployeeResponse where
  Employees : List Employee
deriving DecidableEq

/-- An HTTP request as constructed by the client: method, URL path, and the
list of query parameters (key, value) added via `url.Values`. -/
structure Request where
  method : String
  url : String
  query : List (String × String)
deriving DecidableEq

/-- Transport-level errors produced by the executor collaborator. -/
abbrev TransportErr := String

/-- Errors returned by the client operations: either an error surfaced
unchanged from the collaborator, or the distinct error value created by
`errors.New("No employee found")` in `GetEmployeeByEmail`. -/
inductive ClientError where
  | transport (e : TransportErr)
  | notFound
deriving DecidableEq

/-- The client configuration (`Client` holds the base URL; the executor is
passed separately). -/
structure Client where
  BaseURL : String

/-- The injected request executor (`c.makeRequest(req, &dest)`): one decoding
channel per destination type used in `employees.go` (`EmployeeResponse` for
the directory endpoint, `Employee` for the detail endpoint). -/
structure Exec where
  dir : Request → Except TransportErr EmployeeResponse
  emp : Request → Except TransportErr Employee

/-- `GetEmployeeDirectory` returns a list of employees: issues
`GET {BaseURL}/employees/directory` and on success returns the `Employees`
array of the decoded response. -/
def GetEmployeeDirectory (c : Client) (x : Exec) :
    List Request × Except ClientError (List Employee) :=
  let url := c.BaseURL ++ "/employees/directory"
  let req : Request := { method := "GET", url := url, query := [] }
  match x.dir req with
  | .error e => ([req], .error (.transport e))
  | .ok er => ([req], .ok er.Employees)

/-- The linear scan shared by `GetEmployeeIDByEmail` and
`GetEmployeeByEmail`: the ID of the first entry whose `WorkEmail` equals the
email, defaulting to the zero value `""` when no entry matches. -/
def scanID (directory : List Employee) (email : String) : String :=
  match directory with
  | [] => ""
  | e :: rest => if e.WorkEmail = email then e.ID else scanID rest email

/-- The default field list inlined in `GetEmployee` when the caller supplies
no fields. -/
def defaultFields : EmployeeFields :=
  [DisplayName, FirstName, LastName, PreferredName, Gender, JobTitle,
   WorkPhone, MobilePhone, WorkEmail, Department, Location, Division,
   LinkedIn, WorkPhoneExtension, PhotoUploaded, PhotoURL, CanUploadPhoto,
   HireDate]

/-- `GetEmployee` retrieves a specific employee by ID and allows the caller
to specify fields; the default field list is used when none are specified.
The `for _, field := range fields` copy loop is embedded as the
corresponding left fold. -/
def GetEmployee (c : Client) (x : Exec) (id : String)
    (fields : List EmployeeField) :
    List Request × Except ClientError Employee :=
  let url := c.BaseURL ++ "/employees/" ++ id
  let ef : EmployeeFields :=
    if fields.length > 0 then
      fields.foldl (fun acc field => acc ++ [field]) []
    else
      defaultFields
  let req : Request :=
    { method := "GET", url := url, query := [("fields", Join ef ",")] }
  match x.emp req with
  | .error e => ([req], .error (.transport e))
  | .ok employee => ([req], .ok employee)

/-- `GetEmployeeIDByEmail` retrieves a specific employee ID from the
directory of all available employees (the Go code hardcodes
`context.TODO()`, which does not affect the returned values). -/
def GetEmployeeIDByEmail (c : Client) (x : Exec) (email : String) :
    List Request × Except ClientError String :=
  match GetEmployeeDirectory c x with
  | (reqs, .error e) => (reqs, .error e)
  | (reqs, .ok directory) => (reqs, .ok (scanID directory email))

/-- `GetEmployeeByEmail` retrieves a specific employee's details by email:
fetches the directory, scans for the first matching work email (`break` at
the first hit, starting from the zero value `id = ""`), fails with the
not-found error when `len(id) == 0`, and otherwise delegates to
`GetEmployee`. -/
def GetEmployeeByEmail (c : Client) (x : Exec) (email : String)
    (fields : List EmployeeField) :
    List Request × Except ClientError Employee :=
  match GetEmployeeDirectory c x with
  | (reqs, .error e) => (reqs, .error e)
  | (reqs, .ok directory) =>
    let id := scanID directory email
    if id.length = 0 then
      (reqs, .error .notFound)
    else
      let r := GetEmployee c x id fields
      (reqs ++ r.1, r.2)

/-- Spec-side reference for `Join`, written from the spec's words: empty
string for zero tokens, the single token unmodified for one, otherwise the
concatenation of all tokens in sequence order with the separator inserted
between consecutive tokens. -/
def joinSpec (ef : EmployeeFields) (sep : String) : String :=
  match ef with
  | [] => ""
  | [f] => f
  | f :: t :: r => f ++ sep ++ joinSpec (t :: r) sep

/-- Concrete client used to evaluate the operations on closed inputs. -/
def wClient : Client := { BaseURL := "http://h" }

/-- A directory entry with a non-empty ID (spec §8 scenario). -/
def wEmp : Employee := { emptyEmployee with ID := "7", WorkEmail := "a@x.com" }

/-- A directory entry whose `WorkEmail` matches but whose ID is empty. -/
def wEmpNoID : Employee := { emptyEmployee with ID := "", WorkEmail := "a@x.com" }

/-- Executor answering every request from a one-entry directory. -/
def wExec : Exec :=
  { dir := fun _ => .ok { Employees := [wEmp] }, emp := fun _ => .ok wEmp }

/-- Executor whose only directory entry has an empty ID. -/
def wExecNoID : Exec :=
  { dir := fun _ => .ok { Employees := [wEmpNoID] },
    emp := fun _ => .ok emptyEmployee }

/-- Executor that fails every request. -/
def wExecFail : Exec :=
  { dir := fun _ => .error "boom", emp := fun _ => .error "boom" }

/-- Executor whose directory call succeeds but whose employee-detail call
fails. -/
def wExecEmpFail : Exec :=
  { dir := fun _ => .ok { Employees := [wEmp] }, emp := fun _ => .error "empboom" }

/-- A JSON value, as far as the decoding of `Employee` is concerned. -/
inductive JVal where
  | jstr (s : String)
  | jbool (b : Bool)
  | jint (n : Int)
  | jnull
deriving DecidableEq

/-- A JSON object: an association list from keys to values. -/
abbrev JObj := List (String × JVal)

/-- Modelled from the spec: string-field decoding by the executor
collaborator (`makeRequest` is not under src/): a string key present in the
object decodes to its value, anything else decodes to the zero value `""`. -/
def decStr (o : JObj) (k : String) : String :=
  match o.lookup k with
  | some (.jstr s) => s
  | _ => ""

/-- Modelled from the spec: optional-boolean decoding (`*bool` in Go): a key
that is missing or not a boolean leaves the field absent (`none`); a boolean
value decodes to `some`. -/
def decBool (o : JObj) (k : String) : Option Bool :=
  match o.lookup k with
  | some (.jbool b) => some b
  | _ => none

/-- Modelled from the spec: optional-integer decoding (`*int` in Go): a key
that is missing or not an integer leaves the field absent (`none`); an
integer value decodes to `some`. -/
def decInt (o : JObj) (k : String) : Option Int :=
  match o.lookup k with
  | some (.jint n) => some n
  | _ => none

/-- Modelled from the spec: JSON decoding of an `Employee` record by the
executor collaborator (`makeRequest`, not under src/), key by key; fields
not present in the response keep their zero value, except `PhotoUploaded`
and `CanUploadPhoto`, which are represented as absent. -/
def decodeEmployee (o : JObj) : Employee :=
  { ID := decStr o "ID", DisplayName := decStr o "DisplayName",
    FirstName := decStr o "FirstName", LastName := decStr o "LastName",
    PreferredName := decStr o "PreferredName", Gender := decStr o "Gender",
    JobTitle := decStr o "JobTitle", WorkPhone := decStr o "WorkPhone",
    MobilePhone := decStr o "MobilePhone", WorkEmail := decStr o "WorkEmail",
    Department := decStr o "Department", Location := decStr o "Location",
    Division := decStr o "Division", LinkedIn := decStr o "LinkedIn",
    WorkPhoneExtension := decStr o "WorkPhoneExtension",
    PhotoUploaded := decBool o "PhotoUploaded",
    PhotoURL := decStr o "PhotoURL",
    CanUploadPhoto := decInt o "CanUploadPhoto",
    HireDate := decStr o "HireDate" }

theorem length_eq_zero_iff (s : String) : s.length = 0 ↔ s = "" := by
  rw [String.ext_iff]
  cases s with
  | mk data => cases data <;> simp [String.length]

theorem foldl_sep (sep : String) :
    ∀ (l : List String) (b : String), l ≠ [] →
      l.foldl (fun acc s => acc ++ sep ++ s) b = b ++ sep ++ joinSpec l sep
  | [], _, h => absurd rfl h
  | [s], b, _ => by simp [joinSpec, List.foldl]
  | s :: t :: r, b, _ => by
    have ih := foldl_sep sep (t :: r) (b ++ sep ++ s) (by simp)
    show (t :: r).foldl (fun acc u => acc ++ sep ++ u) (b ++ sep ++ s) =
      b ++ sep ++ joinSpec (s :: t :: r) sep
    rw [ih, joinSpec]
    simp [String.append_assoc]

theorem Join_eq_joinSpec (ef : EmployeeFields) (sep : String) :
    Join ef sep = joinSpec ef sep := by
  match ef with
  | [] => rfl
  | [f] => rfl
  | f :: t :: r =>
    show (t :: r).foldl (fun b s => b ++ sep ++ s) f = joinSpec (f :: t :: r) sep
    rw [foldl_sep sep (t :: r) f (by simp), joinSpec]

theorem foldl_concat {α : Type} :
    ∀ (l acc : List α), l.foldl (fun a f => a ++ [f]) acc = acc ++ l
  | [], acc => by simp
  | f :: rest, acc => by
    rw [List.foldl, foldl_concat rest (acc ++ [f])]
    simp

theorem scanID_eq_find (directory : List Employee) (email : String) :
    scanID directory email =
      ((directory.find? fun e => e.WorkEmail == email).map Employee.ID).getD "" := by
  induction directory with
  | nil => rfl
  | cons e rest ih =>
    by_cases h : e.WorkEmail = email
    · simp [scanID, List.find?_cons, h]
    · simp only [scanID, List.find?_cons, if_neg h]
      rw [ih]
      have : (e.WorkEmail == email) = false := by
        simp [h]
      simp [this]

theorem joinSpec_length (sep : String) :
    ∀ ef : EmployeeFields, ef ≠ [] →
      (joinSpec ef sep).length =
        (ef.map String.length).sum + (ef.length - 1) * sep.length
  | [], h => absurd rfl h
  | [f], _ => by simp [joinSpec]
  | f :: t :: r, _ => by
    have ih := joinSpec_length sep (t :: r) (by simp)
    rw [joinSpec]
    simp only [String.length_append, List.map, List.sum_cons, List.length_cons,
      Nat.add_sub_cancel] at ih ⊢
    rw [ih]
    ring

theorem GetEmployee_not_notFound (c : Client) (x : Exec) (id : String)
    (fields : List EmployeeField) :
    (GetEmployee c x id fields).2 ≠ .error .notFound := by
  unfold GetEmployee
  dsimp only
  split <;> simp

theorem decBool_of_lookup_none (o : JObj) (k : String)
    (h : o.lookup k = none) : decBool o k = none := by
  unfold decBool
  rw [h]

theorem decInt_of_lookup_none (o : JObj) (k : String)
    (h : o.lookup k = none) : decInt o k = none := by
  unfold decInt
  rw [h]

theorem decBool_of_lookup_bool (o : JObj) (k : String) (b : Bool)
    (h : o.lookup k = some (.jbool b)) : decBool o k = some b := by
  unfold decBool
  rw [h]

theorem decInt_of_lookup_int (o : JObj) (k : String) (n : Int)
    (h : o.lookup k = some (.jint n)) : decInt o k = some n := by
  unfold decInt
  rw [h]

theorem GetEmployee_fst (c : Client) (x : Exec) (id : String)
    (fields : List EmployeeField) :
    (GetEmployee c x id fields).1 =
      [{ method := "GET", url := c.BaseURL ++ "/employees/" ++ id,
         query := [("fields",
           Join (if fields.length > 0 then fields else defaultFields) ",")] }] := by
  have hcopy : fields.foldl (fun acc field => acc ++ [field]) [] = fields := by
    simpa using foldl_concat fields []
  unfold GetEmployee
  dsimp only
  rw [hcopy]
  split <;> rfl

theorem GetEmployeeIDByEmail_eq (c : Client) (x : Exec) (email : String)
    (directory : List Employee) (reqs : List Request)
    (hd : GetEmployeeDirectory c x = (reqs, .ok directory)) :
    GetEmployeeIDByEmail c x email = (reqs, .ok (scanID directory email)) := by
  unfold GetEmployeeIDByEmail
  rw [hd]

theorem GetEmployeeByEmail_eq (c : Client) (x : Exec) (email : String)
    (fields : List EmployeeField) (directory : List Employee)
    (reqs : List Request)
    (hd : GetEmployeeDirectory c x = (reqs, .ok directory)) :
    GetEmployeeByEmail c x email fields =
      if scanID directory email = "" then (reqs, .error .notFound)
      else (reqs ++ (GetEmployee c x (scanID directory email) fields).1,
            (GetEmployee c x (scanID directory email) fields).2) := by
  unfold GetEmployeeByEmail
  rw [hd]
  dsimp only
  by_cases hz : scanID directory email = ""
  · rw [if_pos (by rw [hz]; rfl), if_pos hz]
  · rw [if_neg (fun hc => hz ((length_eq_zero_iff _).mp hc)), if_neg hz]

/-- Claim C1: for every directory returned by `GetEmployeeDirectory` and
every email string, `GetEmployeeIDByEmail` returns, with no error, the ID of
the first directory entry whose `WorkEmail` is exactly (case-sensitively)
equal to the email; and when no entry matches, it returns the empty string
with no error. -/
theorem GetEmployeeIDByEmail_first_match (c : Client) (x : Exec)
    (email : String) (directory : List Employee)
    (h : (GetEmployeeDirectory c x).2 = .ok directory) :
    (GetEmployeeIDByEmail c x email).2 =
      .ok (((directory.find? fun e => e.WorkEmail == email).map
        Employee.ID).getD "") ∧
    ((∀ e ∈ directory, e.WorkEmail ≠ email) →
      (GetEmployeeIDByEmail c x email).2 = .ok "") := by
  rcases hd : GetEmployeeDirectory c x with ⟨reqs, r⟩
  rw [hd] at h
  simp only at h
  subst h
  rw [GetEmployeeIDByEmail_eq c x email directory reqs hd]
  constructor
  · rw [scanID_eq_find]
  · intro hne
    have hnone : directory.find? (fun e => e.WorkEmail == email) = none := by
      rw [List.find?_eq_none]
      intro e he
      simpa using hne e he
    rw [scanID_eq_find, hnone]
    rfl

theorem GetEmployeeIDByEmail_first_match_witness :
    ((GetEmployeeIDByEmail wClient wExec "a@x.com").2 =
      .ok ((([wEmp].find? fun e => e.WorkEmail == "a@x.com").map
        Employee.ID).getD "")) ∧
    ((GetEmployeeIDByEmail wClient wExec "missing@x.com").2 = .ok "") :=
  ⟨(GetEmployeeIDByEmail_first_match wClient wExec "a@x.com" [wEmp] rfl).1,
   (GetEmployeeIDByEmail_first_match wClient wExec "missing@x.com" [wEmp]
     rfl).2 (by decide)⟩

/-- Claim C4: for every field list and separator, `Join` returns the empty
string for zero tokens, the single token unmodified for one token, and
otherwise the concatenation of all tokens in sequence order with the
separator inserted between consecutive tokens (`joinSpec`); it is a total
Lean function, hence pure with no error conditions. -/
theorem Join_three_cases (sep : String) :
    Join [] sep = "" ∧
    (∀ f : EmployeeField, Join [f] sep = f) ∧
    (∀ ef : EmployeeFields, Join ef sep = joinSpec ef sep) :=
  ⟨rfl, fun _ => rfl, fun ef => Join_eq_joinSpec ef sep⟩

/-- Claim C6: every call of `GetEmployeeDirectory` issues exactly one GET
request to `{BaseURL}/employees/directory` with no query parameters, and on
success returns exactly the `Employees` array of the decoded response. -/
theorem GetEmployeeDirectory_request (c : Client) (x : Exec) :
    (GetEmployeeDirectory c x).1 =
      [{ method := "GET", url := c.BaseURL ++ "/employees/directory",
         query := [] }] ∧
    (∀ er : EmployeeResponse,
      x.dir { method := "GET", url := c.BaseURL ++ "/employees/directory",
              query := [] } = .ok er →
      (GetEmployeeDirectory c x).2 = .ok er.Employees) := by
  constructor
  · unfold GetEmployeeDirectory
    dsimp only
    split <;> rfl
  · intro er her
    unfold GetEmployeeDirectory
    dsimp only
    rw [her]

theorem GetEmployeeDirectory_request_witness :
    (GetEmployeeDirectory wClient wExec).2 = .ok [wEmp] :=
  (GetEmployeeDirectory_request wClient wExec).2 { Employees := [wEmp] } rfl

/-- Claim C8: for every field list with at least one token and every
separator, the length of `Join ef sep` equals the sum of the token lengths
plus (number of tokens minus one) times the separator length; for the empty
list the length is zero. -/
theorem Join_length (ef : EmployeeFields) (sep : String) :
    (ef ≠ [] →
      (Join ef sep).length =
        (ef.map String.length).sum + (ef.length - 1) * sep.length) ∧
    (Join [] sep).length = 0 := by
  refine ⟨fun h => ?_, rfl⟩
  rw [Join_eq_joinSpec]
  exact joinSpec_length sep ef h

theorem Join_length_witness :
    ([WorkEmail, JobTitle] ≠ ([] : EmployeeFields)) ∧
    (Join [WorkEmail, JobTitle] ",").length =
      (([WorkEmail, JobTitle] : EmployeeFields).map String.length).sum +
        (([WorkEmail, JobTitle] : EmployeeFields).length - 1) * ",".length :=
  ⟨by simp, (Join_length [WorkEmail, JobTitle] ",").1 (by simp)⟩

/-- Claim C2 as stated is false on the code: in a directory whose first (and
only) entry matches the email but carries an empty ID, a matching entry
exists and yet `GetEmployeeByEmail` still fails with the not-found error, so
"fails with the NotFoundError iff no entry's WorkEmail equals the email" is
refuted at this concrete input. -/
theorem GetEmployeeByEmail_notFound_cex :
    (GetEmployeeDirectory wClient wExecNoID).2 = .ok [wEmpNoID] ∧
    (∃ e ∈ [wEmpNoID], e.WorkEmail = "a@x.com") ∧
    ¬ ((GetEmployeeByEmail wClient wExecNoID "a@x.com" []).2 =
          .error .notFound ↔
        ¬ ∃ e ∈ [wEmpNoID], e.WorkEmail = "a@x.com") := by
  refine ⟨rfl, ⟨wEmpNoID, by simp, rfl⟩, fun hiff => ?_⟩
  exact (hiff.mp rfl) ⟨wEmpNoID, by simp, rfl⟩

/-- Claim C2 (amended): for every directory returned by
`GetEmployeeDirectory`, `GetEmployeeByEmail` fails with the not-found error
iff the scan produces an empty ID — that is, iff no entry's `WorkEmail`
equals the email, or the first matching entry's ID is the empty string; and
whenever the first matching entry's ID is non-empty it delegates to
`GetEmployee` with that ID and the caller's fields, returning that call's
result. -/
theorem GetEmployeeByEmail_notFound_iff (c : Client) (x : Exec)
    (email : String) (fields : List EmployeeField)
    (directory : List Employee)
    (h : (GetEmployeeDirectory c x).2 = .ok directory) :
    ((GetEmployeeByEmail c x email fields).2 = .error .notFound ↔
      ∀ e, directory.find? (fun a => a.WorkEmail == email) = some e →
        e.ID = "") ∧
    (∀ e, directory.find? (fun a => a.WorkEmail == email) = some e →
      e.ID ≠ "" →
      (GetEmployeeByEmail c x email fields).2 =
        (GetEmployee c x e.ID fields).2) := by
  rcases hd : GetEmployeeDirectory c x with ⟨reqs, r⟩
  rw [hd] at h
  simp only at h
  subst h
  rw [GetEmployeeByEmail_eq c x email fields directory reqs hd]
  cases hf : directory.find? (fun a => a.WorkEmail == email) with
  | none =>
    have hid : scanID directory email = "" := by
      rw [scanID_eq_find, hf]
      rfl
    rw [if_pos hid]
    constructor
    · constructor
      · intro _ e he
        cases he
      · intro _
        rfl
    · intro e he
      cases he
  | some e =>
    have hid : scanID directory email = e.ID := by
      rw [scanID_eq_find, hf]
      rfl
    by_cases hz : e.ID = ""
    · rw [if_pos (by rw [hid, hz])]
      constructor
      · constructor
        · intro _ e' he'
          cases he'
          exact hz
        · intro _
          rfl
      · intro e' he'
        cases he'
        intro hne
        exact absurd hz hne
    · rw [if_neg (by rw [hid]; exact hz)]
      constructor
      · constructor
        · intro hcon
          dsimp only at hcon
          rw [hid] at hcon
          exact absurd hcon (GetEmployee_not_notFound c x e.ID fields)
        · intro hall
          exact absurd (hall e rfl) hz
      · intro e' he'
        cases he'
        intro _
        dsimp only
        rw [hid]

theorem GetEmployeeByEmail_notFound_iff_witness :
    (GetEmployeeByEmail wClient wExecNoID "a@x.com" []).2 =
      .error .notFound ∧
    (GetEmployeeByEmail wClient wExec "a@x.com" []).2 =
      (GetEmployee wClient wExec wEmp.ID []).2 :=
  ⟨(GetEmployeeByEmail_notFound_iff wClient wExecNoID "a@x.com" [] [wEmpNoID]
      rfl).1.mpr
    (fun e he => by
      have hfe : ([wEmpNoID].find? fun a => a.WorkEmail == "a@x.com") =
          some wEmpNoID := rfl
      rw [hfe] at he
      cases he
      rfl),
   (GetEmployeeByEmail_notFound_iff wClient wExec "a@x.com" [] [wEmp]
      rfl).2 wEmp rfl (by decide)⟩

set_option maxRecDepth 8000 in
/-- Claim C3: `GetEmployee` with an empty field list issues one request whose
`fields` query parameter is the 18 default tokens joined by commas in the
documented order, and the `ReportingTo` token (`"Reporting to"`) appears
neither in the default list nor anywhere inside the joined string. -/
theorem GetEmployee_default_fields (c : Client) (x : Exec) (id : String) :
    (GetEmployee c x id []).1 =
      [{ method := "GET", url := c.BaseURL ++ "/employees/" ++ id,
         query := [("fields", Join defaultFields ",")] }] ∧
    Join defaultFields "," =
      "DisplayName,FirstName,LastName,PreferredName,Gender,JobTitle,WorkPhone,MobilePhone,WorkEmail,Department,Location,Division,LinkedIn,WorkPhoneExtension,PhotoUploaded,PhotoURL,CanUploadPhoto,HireDate" ∧
    defaultFields.length = 18 ∧
    ReportingTo ∉ defaultFields ∧
    ¬ ∃ a b : String, Join defaultFields "," = a ++ ReportingTo ++ b := by
  refine ⟨by
      rw [GetEmployee_fst,
        if_neg (by decide : ¬ ([] : List EmployeeField).length > 0)],
    rfl, rfl, by decide, ?_⟩
  rintro ⟨a, b, hab⟩
  have hsp : ∀ ch ∈ (Join defaultFields ",").data, ch ≠ ' ' := by decide
  have hmem : ' ' ∈ (Join defaultFields ",").data := by
    rw [hab, String.data_append, String.data_append]
    have : ' ' ∈ ReportingTo.data := by decide
    simp [this]
  exact hsp ' ' hmem rfl

/-- Claim C5: `GetEmployee` with a non-empty explicit field list issues one
request to `{BaseURL}/employees/{id}` whose `fields` query parameter is the
caller's fields, in caller order, joined by commas; in particular for
`[WorkEmail, JobTitle]` the query carries `fields=WorkEmail,JobTitle`. -/
theorem GetEmployee_explicit_fields (c : Client) (x : Exec) (id : String)
    (fields : List EmployeeField) (h : fields ≠ []) :
    (GetEmployee c x id fields).1 =
      [{ method := "GET", url := c.BaseURL ++ "/employees/" ++ id,
         query := [("fields", Join fields ",")] }] ∧
    Join [WorkEmail, JobTitle] "," = "WorkEmail,JobTitle" := by
  refine ⟨?_, rfl⟩
  rw [GetEmployee_fst, if_pos (List.length_pos.mpr h)]

theorem GetEmployee_explicit_fields_witness :
    (GetEmployee wClient wExec "7" [WorkEmail, JobTitle]).1 =
      [{ method := "GET", url := wClient.BaseURL ++ "/employees/" ++ "7",
         query := [("fields", Join [WorkEmail, JobTitle] ",")] }] ∧
    Join [WorkEmail, JobTitle] "," = "WorkEmail,JobTitle" :=
  GetEmployee_explicit_fields wClient wExec "7" [WorkEmail, JobTitle]
    (by simp)

/-- Claim C7: whenever `GetEmployeeDirectory` fails, `GetEmployeeIDByEmail`
and `GetEmployeeByEmail` return that same error unchanged; and whenever the
delegated `GetEmployee` call inside `GetEmployeeByEmail` fails, that error
is returned unchanged; no error is swallowed or transformed in this layer. -/
theorem error_propagation (c : Client) (x : Exec) (email : String)
    (fields : List EmployeeField) :
    (∀ e : ClientError, (GetEmployeeDirectory c x).2 = .error e →
      (GetEmployeeIDByEmail c x email).2 = .error e ∧
      (GetEmployeeByEmail c x email fields).2 = .error e) ∧
    (∀ directory : List Employee,
      (GetEmployeeDirectory c x).2 = .ok directory →
      scanID directory email ≠ "" →
      ∀ e : ClientError,
        (GetEmployee c x (scanID directory email) fields).2 = .error e →
        (GetEmployeeByEmail c x email fields).2 = .error e) := by
  constructor
  · intro e he
    rcases hd : GetEmployeeDirectory c x with ⟨reqs, r⟩
    rw [hd] at he
    simp only at he
    subst he
    constructor
    · unfold GetEmployeeIDByEmail
      rw [hd]
    · unfold GetEmployeeByEmail
      rw [hd]
  · intro directory hok hz e he
    rcases hd : GetEmployeeDirectory c x with ⟨reqs, r⟩
    rw [hd] at hok
    simp only at hok
    subst hok
    rw [GetEmployeeByEmail_eq c x email fields directory reqs hd, if_neg hz]
    exact he

theorem error_propagation_witness :
    ((GetEmployeeIDByEmail wClient wExecFail "a@x.com").2 =
        .error (.transport "boom") ∧
      (GetEmployeeByEmail wClient wExecFail "a@x.com" []).2 =
        .error (.transport "boom")) ∧
    (GetEmployeeByEmail wClient wExecEmpFail "a@x.com" []).2 =
      .error (.transport "empboom") :=
  ⟨(error_propagation wClient wExecFail "a@x.com" []).1
      (.transport "boom") rfl,
   (error_propagation wClient wExecEmpFail "a@x.com" []).2 [wEmp] rfl
      (by decide) (.transport "empboom") rfl⟩

/-- Claim C9: an `Employee` decoded from a JSON object lacking the
`PhotoUploaded` and `CanUploadPhoto` keys represents both as absent
(`none`), and this absent state is distinguishable from `PhotoUploaded`
explicitly decoded as `false` and `CanUploadPhoto` explicitly decoded
as `0`. -/
theorem decodeEmployee_optional_absent (o : JObj)
    (h1 : o.lookup "PhotoUploaded" = none)
    (h2 : o.lookup "CanUploadPhoto" = none) :
    (decodeEmployee o).PhotoUploaded = none ∧
    (decodeEmployee o).CanUploadPhoto = none ∧
    (∀ o' : JObj,
      o'.lookup "PhotoUploaded" = some (JVal.jbool false) →
      o'.lookup "CanUploadPhoto" = some (JVal.jint 0) →
      (decodeEmployee o').PhotoUploaded = some false ∧
      (decodeEmployee o').CanUploadPhoto = some 0 ∧
      (decodeEmployee o).PhotoUploaded ≠ (decodeEmployee o').PhotoUploaded ∧
      (decodeEmployee o).CanUploadPhoto ≠
        (decodeEmployee o').CanUploadPhoto) := by
  have hb := decBool_of_lookup_none o "PhotoUploaded" h1
  have hi := decInt_of_lookup_none o "CanUploadPhoto" h2
  simp only [decodeEmployee]
  refine ⟨hb, hi, ?_⟩
  intro o' hb0 hi0
  have hb1 := decBool_of_lookup_bool o' "PhotoUploaded" false hb0
  have hi1 := decInt_of_lookup_int o' "CanUploadPhoto" 0 hi0
  rw [hb, hi, hb1, hi1]
  exact ⟨rfl, rfl, by simp, by simp⟩

theorem decodeEmployee_optional_absent_witness :
    (decodeEmployee [("ID", JVal.jstr "7")]).PhotoUploaded = none ∧
    (decodeEmployee [("ID", JVal.jstr "7")]).CanUploadPhoto = none ∧
    (decodeEmployee [("PhotoUploaded", JVal.jbool false),
        ("CanUploadPhoto", JVal.jint 0)]).PhotoUploaded = some false ∧
    (decodeEmployee [("PhotoUploaded", JVal.jbool false),
        ("CanUploadPhoto", JVal.jint 0)]).CanUploadPhoto = some 0 ∧
    (decodeEmployee [("ID", JVal.jstr "7")]).PhotoUploaded ≠
      (decodeEmployee [("PhotoUploaded", JVal.jbool false),
        ("CanUploadPhoto", JVal.jint 0)]).PhotoUploaded ∧
    (decodeEmployee [("ID", JVal.jstr "7")]).CanUploadPhoto ≠
      (decodeEmployee [("PhotoUploaded", JVal.jbool false),
        ("CanUploadPhoto", JVal.jint 0)]).CanUploadPhoto := by
  have t := decodeEmployee_optional_absent [("ID", JVal.jstr "7")] rfl rfl
  have t2 := t.2.2 [("PhotoUploaded", JVal.jbool false),
    ("CanUploadPhoto", JVal.jint 0)] rfl rfl
  exact ⟨t.1, t.2.1, t2.1, t2.2.1, t2.2.2.1, t2.2.2.2⟩

/-- Claim C10: when the first directory entry whose `WorkEmail` equals the
email has an empty ID, `GetEmployeeByEmail` returns the not-found error
having issued only the directory request (no second request), and
`GetEmployeeIDByEmail` returns the empty string with no error — the same
observable outcomes as when no entry matches at all. -/
theorem empty_id_match (c : Client) (x : Exec) (email : String)
    (fields : List EmployeeField) (directory : List Employee)
    (reqs : List Request)
    (hd : GetEmployeeDirectory c x = (reqs, .ok directory)) (e : Employee)
    (hf : directory.find? (fun a => a.WorkEmail == email) = some e)
    (hid : e.ID = "") :
    GetEmployeeByEmail c x email fields = (reqs, .error .notFound) ∧
    GetEmployeeIDByEmail c x email = (reqs, .ok "") := by
  have hs : scanID directory email = "" := by
    rw [scanID_eq_find, hf]
    exact hid
  constructor
  · rw [GetEmployeeByEmail_eq c x email fields directory reqs hd, if_pos hs]
  · rw [GetEmployeeIDByEmail_eq c x email directory reqs hd, hs]

theorem empty_id_match_witness :
    GetEmployeeByEmail wClient wExecNoID "a@x.com" [] =
      ([{ method := "GET", url := wClient.BaseURL ++ "/employees/directory",
          query := [] }], .error .notFound) ∧
    GetEmployeeIDByEmail wClient wExecNoID "a@x.com" =
      ([{ method := "GET", url := wClient.BaseURL ++ "/employees/directory",
          query := [] }], .ok "") :=
  empty_id_match wClient wExecNoID "a@x.com" [] [wEmpNoID]
    [{ method := "GET", url := wClient.BaseURL ++ "/employees/directory",
       query := [] }]
    rfl wEmpNoID rfl rfl

end BambooHR
